import Mathlib

/-!
Shallow embedding of the meal-eligibility backend
(`free-lunch-eligibility-check-backend`).

Conventions of the embedding:

* JavaScript `Date` values are modelled as milliseconds since the Unix
  epoch (`Int`); an *Invalid Date* (a `NaN` time value) is modelled as
  `none` in `Option Int`, and numeric `NaN` propagation through
  arithmetic is modelled with `Option.map` / `Option.bind`.
* Calendar arithmetic (`Date.UTC`, `getUTCFullYear`, `getUTCMonth`,
  `getUTCDay`, `toISOString().split("T")[0]`) is implemented with the
  standard proleptic-Gregorian day-count algorithms.  ECMAScript uses
  floor division and its positive `modulo` operation; on `Int`, `/`
  and `%` are Euclidean division, which coincides with floor division
  for the positive divisors used here.
* The server is assumed to run with a UTC local timezone, so
  `getFullYear`/`getMonth` coincide with their UTC variants.  None of
  the verified claims depends on the local offset.
* MongoDB documents become Lean structures; a collection is a `List`;
  `find` / `findOne` / aggregation pipelines become `List.filter`,
  `List.find?` and counting, mirroring the concrete queries of the
  controllers.  Object ids are `Nat`.
* `new Date(string)` is modelled by `jsParseDate`, covering the ISO
  date-only forms `YYYY-MM-DD` / `YYYY-MM` / `YYYY` and mapping every
  other string to `none` (Invalid Date).  V8 additionally accepts some
  non-ISO strings through its legacy parser, so `jsParseDate` is a
  *partial* model: theorems rely on it only through hypotheses of the
  form `jsParseDate v = some t` (where the engine agrees on the ISO
  fragment) or at concrete literals checked against V8 by hand — in
  particular `new Date("1st")` and `new Date("2nd")` are Invalid Dates
  in V8: after the number `1` the legacy parser meets the garbage word
  `st` and rejects ("garbage words are illegal if a number has been
  read").  No theorem asserts an error of the program from
  `jsParseDate v = none` for an arbitrary `v`.
* `parseInt(s, 10)` is modelled in full by `jsParseInt`: leading
  `StrWhiteSpaceChar` stripping, an optional sign, then the longest
  prefix of decimal digits, with `NaN` as `none`.
* A JavaScript truthiness test `value ? … : …` on an optional string
  is modelled as: `none` and `some ""` (the only falsy string) take
  the else-branch.
-/

/-- Milliseconds per UTC day (`msPerDay` in ECMAScript). -/
def dayMs : Int := 86400000

/-- Day count since 1970-01-01 of the civil date `(y, m, d)` with
`m ∈ [1,12]` (Howard Hinnant `days_from_civil`, floor-division form).
The day component may be out of range; it is added as an offset, which
is exactly how `Date.UTC` normalises day-of-month values. -/
def daysFromCivil (y m d : Int) : Int :=
  let yAdj : Int := if m ≤ 2 then y - 1 else y
  let era : Int := yAdj / 400
  let yoe : Int := yAdj - era * 400
  let mp : Int := (m + 9) % 12
  let doy : Int := (153 * mp + 2) / 5 + (d - 1)
  let doe : Int := yoe * 365 + yoe / 4 - yoe / 100 + doy
  era * 146097 + doe - 719468

/-- Inverse of `daysFromCivil`: the civil `(year, month 1..12, day)` of a
day count (Howard Hinnant `civil_from_days`). -/
def civilFromDays (z : Int) : Int × Int × Int :=
  let z' : Int := z + 719468
  let era : Int := z' / 146097
  let doe : Int := z' - era * 146097
  let yoe : Int := (doe - doe / 1460 + doe / 36524 - doe / 146096) / 365
  let y : Int := yoe + era * 400
  let doy : Int := doe - (365 * yoe + yoe / 4 - yoe / 100)
  let mp : Int := (5 * doy + 2) / 153
  let d : Int := doy - (153 * mp + 2) / 5 + 1
  let m : Int := if mp < 10 then mp + 3 else mp - 9
  (if m ≤ 2 then y + 1 else y, m, d)

/-- `MakeDay(year, month, date)` of ECMAScript (month is 0-based and may
overflow; the result is a day count since the epoch). -/
def makeDay (y m d : Int) : Int :=
  daysFromCivil (y + m / 12) (m % 12 + 1) d

/-- `getUTCFullYear` of a millisecond timestamp. -/
def getUTCFullYear (t : Int) : Int := (civilFromDays (t / dayMs)).1

/-- `getUTCMonth` (0-based) of a millisecond timestamp. -/
def getUTCMonth (t : Int) : Int := (civilFromDays (t / dayMs)).2.1 - 1

/-- Numeric value of a list of decimal digit characters. -/
def digitsVal (cs : List Char) : Int :=
  cs.foldl (fun acc c => acc * 10 + (Int.ofNat c.toNat - 48)) 0

/-- Splitting a character list on a separator (the semantics of
JavaScript `String.prototype.split` with a one-character separator;
structural recursion so that concrete instances evaluate in the
kernel). -/
def splitOnChar (sep : Char) : List Char → List (List Char)
  | [] => [[]]
  | c :: cs =>
    match splitOnChar sep cs with
    | [] => [[c]]
    | h :: t => if c = sep then [] :: h :: t else (c :: h) :: t

/-- The ECMAScript `StrWhiteSpaceChar` set (`WhiteSpace` plus
`LineTerminator` code points) that `parseInt` strips from the front of
its argument. -/
def jsStrWhiteSpace (c : Char) : Bool :=
  c.toNat = 0x9 || c.toNat = 0xa || c.toNat = 0xb || c.toNat = 0xc ||
  c.toNat = 0xd || c.toNat = 0x20 || c.toNat = 0xa0 || c.toNat = 0x1680 ||
  (0x2000 ≤ c.toNat && c.toNat ≤ 0x200a) || c.toNat = 0x2028 ||
  c.toNat = 0x2029 || c.toNat = 0x202f || c.toNat = 0x205f ||
  c.toNat = 0x3000 || c.toNat = 0xfeff

/-- `parseInt(s, 10)`: strip leading whitespace, read an optional sign,
then take the longest prefix of decimal digits; `NaN` (`none`) exactly
when no digit follows. -/
def jsParseInt (cs : List Char) : Option Int :=
  match cs.dropWhile jsStrWhiteSpace with
  | '-' :: rest =>
    let ds := rest.takeWhile Char.isDigit
    if ds.isEmpty then none else some (-digitsVal ds)
  | '+' :: rest =>
    let ds := rest.takeWhile Char.isDigit
    if ds.isEmpty then none else some (digitsVal ds)
  | s =>
    let ds := s.takeWhile Char.isDigit
    if ds.isEmpty then none else some (digitsVal ds)

/-- A component made of exactly `n` decimal digits, else `none`. -/
def fixedDigits (cs : List Char) (n : Nat) : Option Int :=
  if cs.length = n ∧ cs.all Char.isDigit then some (digitsVal cs) else none

/-- `new Date(string)` for the ISO date-only forms `YYYY-MM-DD`,
`YYYY-MM` and `YYYY` (UTC midnight); every other string the
controllers pass (such as `1st` or `2nd`) is an Invalid Date, i.e.
`none`.  Out-of-range components are rejected by a round trip through
`civilFromDays`, matching the ECMAScript ISO parser. -/
def jsParseDate (s : String) : Option Int :=
  match splitOnChar '-' s.toList with
  | [ys, ms, ds] =>
    match fixedDigits ys 4, fixedDigits ms 2, fixedDigits ds 2 with
    | some y, some m, some d =>
      if civilFromDays (daysFromCivil y m d) = (y, m, d) then
        some (daysFromCivil y m d * dayMs)
      else none
    | _, _, _ => none
  | [ys, ms] =>
    match fixedDigits ys 4, fixedDigits ms 2 with
    | some y, some m => if 1 ≤ m ∧ m ≤ 12 then some (daysFromCivil y m 1 * dayMs) else none
    | _, _ => none
  | [ys] =>
    match fixedDigits ys 4 with
    | some y => some (daysFromCivil y 1 1 * dayMs)
    | _ => none
  | _ => none

/-- `getUTCDay` of a millisecond timestamp: `0` = Sunday … `6` =
Saturday (`WeekDay(t) = (Day(t) + 4) modulo 7` in ECMAScript). -/
def getUTCDayOfWeek (t : Int) : Int := (t / dayMs + 4) % 7

/-- The weekday-name table `["Sunday", …, "Saturday"]` used by
`getCurrentDayOfWeek` and `toLocaleDateString(..., weekday: long)`. -/
def dayName (w : Int) : String :=
  ["Sunday", "Monday", "Tuesday", "Wednesday", "Thursday", "Friday", "Saturday"].getD w.toNat "Sunday"

/-- The `validDays` array of `generateUnclaimedRecords` (also the
`DAYS_OF_WEEK` enum of the schedule model). -/
def validDays : List String :=
  ["Monday", "Tuesday", "Wednesday", "Thursday", "Friday", "Saturday", "Sunday"]

/-- The Monday-anchored week of the day-count `d`:
`(startMs, endMs)` = Monday 00:00:00.000 through Sunday 23:59:59.999,
computed exactly as the `weekly` branch of `getPeriodRange`
(`diffToMonday = dayOfWeek === 0 ? -6 : 1 - dayOfWeek`). -/
def weeklyRangeMs (d : Int) : Int × Int :=
  let dayOfWeek : Int := (d + 4) % 7
  let diffToMonday : Int := if dayOfWeek = 0 then -6 else 1 - dayOfWeek
  let monday : Int := d + diffToMonday
  (monday * dayMs, (monday + 7) * dayMs - 1)

/-- `getPeriodRange(periodType, value)` of `dashboardController.js`
(the authoritative, UTC-normalised revision).  `nowMs` stands for the
`new Date()` captured at the top of the function.  The result carries
the `startDate`/`endDate` pair (`none` = Invalid Date) or the
`error` string. -/
def getPeriodRange (nowMs : Int) (periodType : String) (value : Option String) :
    Except String (Option Int × Option Int) :=
  let referenceYear : Option Int :=
    match value with
    | some v =>
      if v = "" then some (getUTCFullYear nowMs) else (jsParseDate v).map getUTCFullYear
    | none => some (getUTCFullYear nowMs)
  let pt := String.mk (periodType.toList.map Char.toLower)
  if pt = "daily" then
    match (match value with
           | some v => if v = "" then some nowMs else jsParseDate v
           | none => some nowMs) with
    | none => .error "Invalid date format for daily filter. Use YYYY-MM-DD."
    | some t =>
      let s := t / dayMs * dayMs
      .ok (some s, some (s + dayMs - 1))
  else if pt = "weekly" then
    match (match value with
           | some v => if v = "" then some nowMs else jsParseDate v
           | none => some nowMs) with
    | none => .error "Invalid date for week period. Provide a YYYY-MM-DD date."
    | some t =>
      let r := weeklyRangeMs (t / dayMs)
      .ok (some r.1, some r.2)
  else if pt = "monthly" then
    let ym : Option (Int × Int) :=
      match value with
      | some v =>
        if v.toList.contains '-' then
          let parts := splitOnChar '-' v.toList
          match jsParseInt (parts.getD 0 []), jsParseInt (parts.getD 1 []) with
          | some y, some mo => some (y, mo - 1)
          | _, _ => none
        else some (getUTCFullYear nowMs, getUTCMonth nowMs)
      | none => some (getUTCFullYear nowMs, getUTCMonth nowMs)
    match ym with
    | none => .error "Invalid format for monthly filter. Use YYYY-MM."
    | some (year, month) =>
      .ok (some (makeDay year month 1 * dayMs),
           some (makeDay year (month + 1) 0 * dayMs + (dayMs - 1)))
  else if pt = "semestral" then
    let academicYearStart : Option Int :=
      if getUTCMonth nowMs ≥ 8 then referenceYear else referenceYear.map (· - 1)
    if value = some "1st" then
      .ok (academicYearStart.map (fun a => makeDay a 8 1 * dayMs),
           academicYearStart.map (fun a => makeDay (a + 1) 1 0 * dayMs + (dayMs - 1)))
    else if value = some "2nd" then
      .ok (academicYearStart.map (fun a => makeDay (a + 1) 1 1 * dayMs),
           academicYearStart.map (fun a => makeDay (a + 1) 7 0 * dayMs + (dayMs - 1)))
    else .error "Invalid semester value. Use 1st or 2nd."
  else .error "Invalid period type specified."

example : daysFromCivil 1970 1 1 = 0 := by decide
example : civilFromDays 0 = (1970, 1, 1) := by decide
example : jsParseDate "1970-01-01" = some 0 := by decide
example : jsParseDate "1st" = none := by decide
example : jsParseDate "2nd" = none := by decide
example : jsParseDate "2024-02-30" = none := by decide
example : jsParseDate "2024-10-06" = some (20002 * 86400000) := by decide
example : getUTCDayOfWeek (20002 * 86400000) = 0 := by decide
example : jsParseInt " 5".toList = some 5 := by decide
example : jsParseInt "-5".toList = some (-5) := by decide
example : jsParseInt "5abc".toList = some 5 := by decide
example : jsParseInt "xx".toList = none := by decide
example : getPeriodRange 0 "monthly" (some "2024- 5") =
  .ok (some (daysFromCivil 2024 5 1 * dayMs), some (daysFromCivil 2024 6 1 * dayMs - 1)) := by rfl
example : getPeriodRange 0 "daily" (some "") = getPeriodRange 0 "daily" none := by rfl
example : getUTCDayOfWeek (4 * 86400000) = 1 := by decide

/-! ## Data model (`models/MealRecordModel.js`, `StudentModel.js`, `ScheduleModel.js`)

Only the fields the verified controllers read or write are modelled;
display-only fields (`section`, `profilePictureUrl`, emails) and
mongoose timestamps are elided. -/

/-- `MEAL_RECORD_STATUSES` of `MealRecordModel.js`. -/
inductive MealStatus where
  | CLAIMED
  | INELIGIBLE_NOT_SCHEDULED
  | INELIGIBLE_STUDENT_NOT_FOUND
  | ELIGIBLE_BUT_NOT_CLAIMED
deriving DecidableEq

/-- A `MealRecord` document: `student` is a nullable reference
(`none` when the scanned id matched no student), `dateChecked` is a
millisecond timestamp. -/
structure MealRecord where
  student : Option Nat
  studentIdNumber : String
  programAtTimeOfRecord : String
  yearLevelAtTimeOfRecord : Int
  dateChecked : Int
  status : MealStatus
deriving DecidableEq

/-- A `Student` document (the fields the eligibility and backfill
controllers use). -/
structure Student where
  _id : Nat
  studentIdNumber : String
  name : String
  program : String
  yearLevel : Int
deriving DecidableEq

/-- A `Schedule` document: one row per
`(program, yearLevel, dayOfWeek)` triple. -/
structure ScheduleRow where
  _id : Nat
  program : String
  yearLevel : Int
  dayOfWeek : String
  isEligible : Bool
deriving DecidableEq

/-- The document store as the controllers see it. -/
structure Db where
  students : List Student
  schedules : List ScheduleRow
  records : List MealRecord
deriving DecidableEq

/-- Keep-one-copy-per-value list used to model both `distinct` results
and membership in a JavaScript `Set`; only membership matters and it
agrees with the input list (`distinct_contains`). -/
def distinct {α : Type} [BEq α] : List α → List α
  | [] => []
  | a :: as => if (distinct as).contains a then distinct as else a :: distinct as

/-! ## `dashboardController.js` (authoritative revision): summary and breakdown -/

/-- One `{allotted, claimed, unclaimed}` bucket of the performance
summary. -/
structure Summary where
  claimed : Nat
  unclaimed : Nat
  allotted : Nat
deriving DecidableEq

/-- `calculateSummaryForSinglePeriod(startDate, endDate)`: match
`dateChecked ∈ [startDate, endDate]` and
`status ∈ [CLAIMED, ELIGIBLE_BUT_NOT_CLAIMED]`, count the two
statuses, and set `allotted = claimed + unclaimed` (all three stay `0`
when the aggregation is empty). -/
def calculateSummaryForSinglePeriod (recs : List MealRecord) (startDate endDate : Int) :
    Summary :=
  let matched := recs.filter (fun r =>
    decide (startDate ≤ r.dateChecked) && decide (r.dateChecked ≤ endDate) &&
    (r.status == .CLAIMED || r.status == .ELIGIBLE_BUT_NOT_CLAIMED))
  if matched.isEmpty then ⟨0, 0, 0⟩
  else
    let claimed := (matched.filter (fun r => r.status == .CLAIMED)).length
    let unclaimed := (matched.filter (fun r => r.status == .ELIGIBLE_BUT_NOT_CLAIMED)).length
    ⟨claimed, unclaimed, claimed + unclaimed⟩

/-- The week sub-ranges of the `monthly` branch of
`getPerformanceSummary`: starting from `weekStart = monthStart`, each
iteration takes the Monday–Sunday week of the day of `weekStart`,
clips it to `[monthStart, monthEnd]`, and jumps `weekStart` to one day
past the week end (`weekRange.endDate.getUTCDate() + 1`), while
`weekStart ≤ monthEnd`. -/
def monthlyBuckets (monthStart monthEnd : Int) (weekStart : Int) : List (Int × Int) :=
  if _h : weekStart ≤ monthEnd then
    let wr := weeklyRangeMs (weekStart / dayMs)
    (max wr.1 monthStart, min wr.2 monthEnd) ::
      monthlyBuckets monthStart monthEnd (wr.2 + dayMs)
  else []
termination_by (monthEnd + dayMs - weekStart).toNat
decreasing_by
  simp only [weeklyRangeMs, dayMs] at *
  omega


/-- The `monthly` branch of `getPerformanceSummary`: resolve the month
range, then aggregate each clipped week with
`calculateSummaryForSinglePeriod` (week labels elided).  If the range
resolution errored the 400 error is forwarded; with Invalid-Date
bounds the `while` guard is a `NaN` comparison and the loop body never
runs. -/
def getPerformanceSummaryMonthly (recs : List MealRecord) (nowMs : Int)
    (value : Option String) : Except String (List Summary) :=
  match getPeriodRange nowMs "monthly" value with
  | .error e => .error e
  | .ok (some s, some e) =>
    .ok ((monthlyBuckets s e s).map (fun r => calculateSummaryForSinglePeriod recs r.1 r.2))
  | .ok _ => .ok []

/-- One output row of `getProgramBreakdown`. -/
structure BreakdownRow where
  name : String
  claimed : Nat
  unclaimed : Nat
  allotted : Nat
deriving DecidableEq

/-- Ascending insertion into a name-sorted row list. -/
def insertRowSorted (r : BreakdownRow) : List BreakdownRow → List BreakdownRow
  | [] => [r]
  | h :: t => if decide (r.name ≤ h.name) then r :: h :: t else h :: insertRowSorted r t

/-- The `$sort: (name: 1)` stage. -/
def sortRowsByName (l : List BreakdownRow) : List BreakdownRow :=
  l.foldr insertRowSorted []

/-- The `$match` stage of `getProgramBreakdown`: date range, the two
countable statuses, and the optional `programAtTimeOfRecord`
restriction (uppercased, as `program.toUpperCase()` in the source). -/
def breakdownMatch (startDate endDate : Int) (program : Option String)
    (r : MealRecord) : Bool :=
  decide (startDate ≤ r.dateChecked) && decide (r.dateChecked ≤ endDate) &&
  (r.status == .CLAIMED || r.status == .ELIGIBLE_BUT_NOT_CLAIMED) &&
  (match program with
   | some p => r.programAtTimeOfRecord == String.mk (p.toList.map Char.toUpper)
   | none => true)

/-- The `$group` key of `getProgramBreakdown`:
`"<yearLevel> year"` when both `program` and `groupBy=yearLevel` are
given, else the denormalised program name. -/
def breakdownKey (program groupBy : Option String) : MealRecord → String :=
  if groupBy == some "yearLevel" && program.isSome then
    fun r => toString r.yearLevelAtTimeOfRecord ++ " year"
  else
    fun r => r.programAtTimeOfRecord

/-- `getProgramBreakdown` for an already-resolved period
`[startDate, endDate]` (the range itself comes from `getPeriodRange`):
filter with `breakdownMatch`, group by `breakdownKey`, count the two
statuses per group, set `allotted = claimed + unclaimed`, and sort
rows by name. -/
def getProgramBreakdown (recs : List MealRecord) (startDate endDate : Int)
    (program : Option String) (groupBy : Option String) : List BreakdownRow :=
  let matched := recs.filter (breakdownMatch startDate endDate program)
  let keyFn := breakdownKey program groupBy
  let keys := distinct (matched.map keyFn)
  sortRowsByName (keys.map (fun k =>
    let grp := matched.filter (fun r => keyFn r == k)
    let c := (grp.filter (fun r => r.status == .CLAIMED)).length
    let u := (grp.filter (fun r => r.status == .ELIGIBLE_BUT_NOT_CLAIMED)).length
    ⟨k, c, u, c + u⟩))

/-! ## `eligibilityController.js` (authoritative revision) -/

/-- JavaScript `String.prototype.trim`. -/
def jsTrim (s : String) : String :=
  String.mk (((s.toList.dropWhile Char.isWhitespace).reverse.dropWhile Char.isWhitespace).reverse)

/-- `getCurrentDayOfWeek()`:
`["Sunday", …][new Date().getUTCDay()]`. -/
def getCurrentDayOfWeek (nowMs : Int) : String :=
  dayName (getUTCDayOfWeek nowMs)

/-- The HTTP response of `checkStudentEligibility`, reduced to the
fields the claims are about (the `studentInfo` display payload is
determined by the student document and elided). -/
inductive CheckResult where
  | badRequest (msg : String)
  | notFound (reason : String)
  | ok (eligibilityStatus : Bool) (reason : String)
deriving DecidableEq

/-- `checkStudentEligibility(req, res)`: trim and validate the scanned
id, look the student up, consult the schedule for the current UTC
weekday, write exactly one `MealRecord` (`CLAIMED`,
`INELIGIBLE_NOT_SCHEDULED`, or `INELIGIBLE_STUDENT_NOT_FOUND` with
`student = null`) and answer.  Returns the response together with the
updated store. -/
def checkStudentEligibility (db : Db) (studentIdNumber : String) (nowMs : Int) :
    CheckResult × Db :=
  if jsTrim studentIdNumber == "" then
    (.badRequest "Student ID Number is required.", db)
  else
    match db.students.find? (fun s => s.studentIdNumber == jsTrim studentIdNumber) with
    | none =>
      let newRecord : MealRecord :=
        ⟨none, jsTrim studentIdNumber, "UNKNOWN", 0, nowMs, .INELIGIBLE_STUDENT_NOT_FOUND⟩
      (.notFound "Student ID not found in masterlist.",
       { db with records := db.records ++ [newRecord] })
    | some student =>
      let currentDay := getCurrentDayOfWeek nowMs
      let scheduleEntry := db.schedules.find? (fun r =>
        r.program == student.program && r.yearLevel == student.yearLevel &&
        r.dayOfWeek == currentDay)
      let isEligibleToday : Bool :=
        match scheduleEntry with
        | some e => e.isEligible
        | none => false
      let mealRecordStatus : MealStatus :=
        if isEligibleToday then .CLAIMED else .INELIGIBLE_NOT_SCHEDULED
      let newRecord : MealRecord :=
        ⟨some student._id, student.studentIdNumber, student.program, student.yearLevel,
         nowMs, mealRecordStatus⟩
      (.ok isEligibleToday
        (if isEligibleToday then "Eligible for meal."
         else "Not scheduled for eligibility on " ++ currentDay ++ "."),
       { db with records := db.records ++ [newRecord] })

/-! ## `recordController.js`: `generateUnclaimedRecords` -/

/-- The JSON answer of `generateUnclaimedRecords`, reduced to the
fields the claims are about.  `err` covers the 400 validation answers
and the 500 produced when the `distinct('student')` result contains
`null` (the not-found audit records), on which
`id.toString()` throws a `TypeError`. -/
inductive GenResult where
  | err (msg : String)
  | ok (createdCount : Nat)
deriving DecidableEq

/-- `createdCount` of an answer (an error created nothing). -/
def GenResult.createdCount : GenResult → Nat
  | .err _ => 0
  | .ok n => n

/-- `generateUnclaimedRecords(req, res)` for `req.body.date = date`:
resolve the UTC day, find the cohorts scheduled eligible on that
weekday, find the students of those cohorts, drop every student that
already has a record (of any status) on that day, and insert one
`ELIGIBLE_BUT_NOT_CLAIMED` record per remaining student, dated to the
start of the day. -/
def generateUnclaimedRecords (db : Db) (date : Option String) : GenResult × Db :=
  match date with
  | none => (.err "A specific date (YYYY-MM-DD) is required in the request body.", db)
  | some ds =>
    match jsParseDate ds with
    | none => (.err "Invalid date format. Please use YYYY-MM-DD.", db)
    | some t =>
      let startDate := t / dayMs * dayMs
      let endDate := startDate + dayMs - 1
      let dayOfWeek := dayName ((t / dayMs + 4) % 7)
      if ¬ (validDays.contains dayOfWeek) then
        (.err "Invalid day calculated from the provided date.", db)
      else
        let eligibleSchedules := db.schedules.filter (fun s =>
          s.dayOfWeek == dayOfWeek && s.isEligible)
        if eligibleSchedules.isEmpty then (.ok 0, db)
        else
          let eligibilityCriteria := eligibleSchedules.map (fun s => (s.program, s.yearLevel))
          let allEligibleStudents := db.students.filter (fun st =>
            eligibilityCriteria.any (fun c => c.1 == st.program && c.2 == st.yearLevel))
          let studentsWithRecords := distinct ((db.records.filter (fun r =>
            decide (startDate ≤ r.dateChecked) && decide (r.dateChecked ≤ endDate))).map
              (fun r => r.student))
          if studentsWithRecords.contains none then
            (.err "TypeError: cannot call toString of null", db)
          else
            let studentsToMarkAsUnclaimed := allEligibleStudents.filter (fun st =>
              ¬ (studentsWithRecords.contains (some st._id)))
            if studentsToMarkAsUnclaimed.isEmpty then (.ok 0, db)
            else
              let recordsToInsert := studentsToMarkAsUnclaimed.map (fun st =>
                (⟨some st._id, st.studentIdNumber, st.program, st.yearLevel,
                  startDate, .ELIGIBLE_BUT_NOT_CLAIMED⟩ : MealRecord))
              (.ok recordsToInsert.length,
               { db with records := db.records ++ recordsToInsert })

/-! ## `scheduleController.js` and the `Schedule` model write paths -/

/-- JavaScript `toUpperCase` (ASCII use here). -/
def jsToUpper (s : String) : String := String.mk (s.toList.map Char.toUpper)

/-- The answer of `addScheduleEntry`, reduced to what the claims need:
the ACT validation rejection versus a processed summary. -/
inductive AddResult where
  | validationError (msg : String)
  | processed (successCount failCount : Nat)
deriving DecidableEq

/-- One `findOneAndUpdate(..., upsert: true, runValidators: true)` step
of the `addScheduleEntry` loop: update `isEligible` of the matching
`(program, yearLevel, dayOfWeek)` row, or insert a fresh row; the
model validators (`yearLevel` 1–4, weekday enum) fail the step. -/
def upsertScheduleDay (rows : List ScheduleRow) (program : String) (yearLevel : Int)
    (dow : String) (elig : Bool) (nid : Nat) : Option (List ScheduleRow) :=
  if ¬ (1 ≤ yearLevel ∧ yearLevel ≤ 4 ∧ validDays.contains dow) then none
  else if rows.any (fun r =>
      r.program == program && r.yearLevel == yearLevel && r.dayOfWeek == dow) then
    some (rows.map (fun r =>
      if r.program == program && r.yearLevel == yearLevel && r.dayOfWeek == dow then
        { r with isEligible := elig }
      else r))
  else some (rows ++ [⟨nid, program, yearLevel, dow, elig⟩])

/-- The upsert loop of `addScheduleEntry` over `scheduleDays`,
tallying created and failed entries. -/
def upsertScheduleDays (rows : List ScheduleRow) (program : String) (yearLevel : Int) :
    List (String × Bool) → Nat → (List ScheduleRow × Nat × Nat)
  | [], _ => (rows, 0, 0)
  | (dow, elig) :: rest, nid =>
    match upsertScheduleDay rows program yearLevel dow elig nid with
    | none =>
      let r := upsertScheduleDays rows program yearLevel rest (nid + 1)
      (r.1, r.2.1, r.2.2 + 1)
    | some rows' =>
      let r := upsertScheduleDays rows' program yearLevel rest (nid + 1)
      (r.1, r.2.1 + 1, r.2.2)

/-- `addScheduleEntry(req, res)`: reject `ACT` above year 2 before
touching the store, else upsert each requested day for
`(program.toUpperCase(), yearLevel)`. -/
def addScheduleEntry (rows : List ScheduleRow) (program : String) (yearLevel : Int)
    (scheduleDays : List (String × Bool)) (nid : Nat) : AddResult × List ScheduleRow :=
  if jsToUpper program == "ACT" && decide (yearLevel > 2) then
    (.validationError "ACT program schedule is only available for Year 1 and 2.", rows)
  else
    let r := upsertScheduleDays rows (jsToUpper program) yearLevel scheduleDays nid
    (.processed r.2.1 r.2.2, r.1)

/-- `updateScheduleEntry(req, res)`: `findByIdAndUpdate` setting only
`isEligible` (program, year level and weekday are not updatable via
this endpoint). -/
def updateScheduleEntry (rows : List ScheduleRow) (id : Nat) (isEligible : Bool) :
    Except String (List ScheduleRow) :=
  if rows.any (fun r => r._id == id) then
    .ok (rows.map (fun r => if r._id == id then { r with isEligible := isEligible } else r))
  else .error "Schedule entry not found"

/-- `deleteScheduleEntry(req, res)`. -/
def deleteScheduleEntry (rows : List ScheduleRow) (id : Nat) :
    Except String (List ScheduleRow) :=
  if rows.any (fun r => r._id == id) then
    .ok (rows.filter (fun r => ¬ (r._id == id)))
  else .error "Schedule entry not found"

/-- A direct `document.save()` / `Model.create()` on the `Schedule`
model: the `uppercase` setter on `program`, the schema validators
(`yearLevel` 1–4, weekday enum), the unique index on the triple, and
the `pre('save')` hook that rejects `ACT` above year 2. -/
def saveSchedule (rows : List ScheduleRow) (row : ScheduleRow) :
    Except String (List ScheduleRow) :=
  let doc := { row with program := jsToUpper row.program }
  if doc.yearLevel < 1 then .error "Year level must be at least 1"
  else if doc.yearLevel > 4 then .error "Year level cannot exceed 4"
  else if ¬ (validDays.contains doc.dayOfWeek) then .error "not a valid day of the week"
  else if doc.program == "ACT" && decide (doc.yearLevel > 2) then
    .error "ACT program schedule is only available for Year 1 and 2."
  else if rows.any (fun r =>
      r.program == doc.program && r.yearLevel == doc.yearLevel &&
      r.dayOfWeek == doc.dayOfWeek) then
    .error "duplicate key"
  else .ok (rows ++ [doc])

/-- The invariant of claim C10: no stored schedule row pairs program
`ACT` with a year level above 2. -/
def ScheduleInvariant (rows : List ScheduleRow) : Prop :=
  ∀ r ∈ rows, ¬ (r.program = "ACT" ∧ r.yearLevel > 2)

/-! ## Theorems

Each claim `Cn` of the specification gets one theorem (plus, where
needed, a closed witness instance or a closed counterexample). -/

/-- The `daily` branch of `getPeriodRange`, isolated definitionally
(a supplied empty string is falsy, so `value ? new Date(value) : now`
falls back to `now`). -/
theorem getPeriodRange_daily_eq (nowMs : Int) (v : String) :
    getPeriodRange nowMs "daily" (some v) =
      match (if v = "" then some nowMs else jsParseDate v) with
      | none => .error "Invalid date format for daily filter. Use YYYY-MM-DD."
      | some t => .ok (some (t / dayMs * dayMs), some (t / dayMs * dayMs + dayMs - 1)) := rfl

/-- The `weekly` branch of `getPeriodRange`, isolated definitionally
(a supplied empty string is falsy, so `value ? new Date(value) : now`
falls back to `now`). -/
theorem getPeriodRange_weekly_eq (nowMs : Int) (v : String) :
    getPeriodRange nowMs "weekly" (some v) =
      match (if v = "" then some nowMs else jsParseDate v) with
      | none => .error "Invalid date for week period. Provide a YYYY-MM-DD date."
      | some t =>
        .ok (some (weeklyRangeMs (t / dayMs)).1, some (weeklyRangeMs (t / dayMs)).2) := rfl

/-- The `semestral` branch of `getPeriodRange`, isolated
definitionally. -/
theorem getPeriodRange_semestral_eq (nowMs : Int) (value : Option String) :
    getPeriodRange nowMs "semestral" value =
      (let referenceYear : Option Int :=
        match value with
        | some v =>
          if v = "" then some (getUTCFullYear nowMs) else (jsParseDate v).map getUTCFullYear
        | none => some (getUTCFullYear nowMs)
       let academicYearStart : Option Int :=
        if getUTCMonth nowMs ≥ 8 then referenceYear else referenceYear.map (· - 1)
       if value = some "1st" then
        .ok (academicYearStart.map (fun a => makeDay a 8 1 * dayMs),
             academicYearStart.map (fun a => makeDay (a + 1) 1 0 * dayMs + (dayMs - 1)))
       else if value = some "2nd" then
        .ok (academicYearStart.map (fun a => makeDay (a + 1) 1 1 * dayMs),
             academicYearStart.map (fun a => makeDay (a + 1) 7 0 * dayMs + (dayMs - 1)))
       else .error "Invalid semester value. Use 1st or 2nd.") := rfl

/-- The week of any day-count `d` is a Monday-to-Sunday block
containing `d`. -/
theorem weeklyRangeMs_spec (d : Int) :
    ∃ m : Int, weeklyRangeMs d = (m * dayMs, (m + 7) * dayMs - 1) ∧
      (m + 4) % 7 = 1 ∧ m ≤ d ∧ d ≤ m + 6 := by
  refine ⟨d + (if (d + 4) % 7 = 0 then -6 else 1 - (d + 4) % 7), rfl, ?_, ?_, ?_⟩ <;>
    (by_cases h : (d + 4) % 7 = 0 <;> simp only [h, if_pos, if_neg, if_true, if_false] <;> omega)

/-- C7: for every parseable date value `v` (denoting the timestamp
`t`), `resolveRange("weekly", v)` returns a seven-day interval that
starts on a Monday at 00:00:00.000 UTC (`(m+4) % 7 = 1` says day-count
`m` is a Monday), ends the following Sunday at 23:59:59.999
(`(m+7)·dayMs − 1`), and contains `t` — for all reference days,
Sundays included. -/
theorem weekly_range_monday_start_contains (nowMs : Int) (v : String) (t : Int)
    (h : jsParseDate v = some t) :
    ∃ m : Int,
      getPeriodRange nowMs "weekly" (some v) =
        .ok (some (m * dayMs), some ((m + 7) * dayMs - 1)) ∧
      (m + 4) % 7 = 1 ∧ m * dayMs ≤ t ∧ t ≤ (m + 7) * dayMs - 1 := by
  obtain ⟨m, hm, hmon, hlo, hhi⟩ := weeklyRangeMs_spec (t / dayMs)
  have hne : ¬ v = "" := by
    intro he
    rw [he, show jsParseDate "" = none from rfl] at h
    exact Option.noConfusion h
  refine ⟨m, ?_, hmon, ?_, ?_⟩
  · rw [getPeriodRange_weekly_eq, if_neg hne, h]
    show Except.ok (some (weeklyRangeMs (t / dayMs)).1, some (weeklyRangeMs (t / dayMs)).2) = _
    rw [hm]
  · have h1 : t / dayMs * dayMs ≤ t := by simp only [dayMs]; omega
    have h2 : m * dayMs ≤ t / dayMs * dayMs := by
      have : (0 : Int) < dayMs := by simp only [dayMs]; omega
      exact mul_le_mul_of_nonneg_right hlo (le_of_lt this)
    omega
  · have h1 : t < (t / dayMs + 1) * dayMs := by simp only [dayMs]; omega
    have h2 : (t / dayMs + 1) * dayMs ≤ (m + 7) * dayMs := by
      have hpos : (0 : Int) ≤ dayMs := by simp only [dayMs]; omega
      exact mul_le_mul_of_nonneg_right (by omega) hpos
    omega

/-- C7 witness: 2024-10-06 is a Sunday; its week is Monday 2024-09-30
through Sunday 2024-10-06. -/
theorem weekly_range_monday_start_contains_witness :
    ∃ m : Int,
      getPeriodRange 0 "weekly" (some "2024-10-06") =
        .ok (some (m * dayMs), some ((m + 7) * dayMs - 1)) ∧
      (m + 4) % 7 = 1 ∧ m * dayMs ≤ 20002 * 86400000 ∧
      20002 * 86400000 ≤ (m + 7) * dayMs - 1 :=
  weekly_range_monday_start_contains 0 "2024-10-06" (20002 * 86400000) (by decide)

/-- C2 counterexample: the value `"2024"` supplied to the `monthly`
resolver is malformed (not of the form `YYYY-MM`), yet no error is
reported: because the value contains no hyphen the code falls into the
default branch and silently returns the *current* month (here January
1970 for `now = 0`). -/
theorem monthly_malformed_value_silently_defaults :
    getPeriodRange 0 "monthly" (some "2024") =
      .ok (some 0, some (31 * 86400000 - 1)) := by rfl

/-- C2 amended: `resolveRange` reports a descriptive validation error
for an unrecognized `periodType` (whatever the value), for a
`daily`/`weekly` reference date that `new Date()` cannot parse (shown
at the value `"1st"`, an Invalid Date in V8), for hyphenated `monthly`
values whose year or month part has no `parseInt` digits, and for
`semestral` values other than `"1st"`/`"2nd"` — but two malformed
supplied values are silently ignored instead: a `monthly` value
*without* a hyphen is replaced by the current month (see the
counterexample), and an *empty* value is falsy, so the `value ? … :
now` test in the `daily` and `weekly` branches silently substitutes
the current day or week. -/
theorem resolveRange_error_reporting (nowMs : Int) (periodType v : String) :
    (String.mk (periodType.toList.map Char.toLower) ∉
        (["daily", "weekly", "monthly", "semestral"] : List String) →
      ∀ value : Option String,
        getPeriodRange nowMs periodType value = .error "Invalid period type specified.") ∧
    (getPeriodRange nowMs "daily" (some "1st") =
        .error "Invalid date format for daily filter. Use YYYY-MM-DD." ∧
      getPeriodRange nowMs "weekly" (some "1st") =
        .error "Invalid date for week period. Provide a YYYY-MM-DD date.") ∧
    (v.toList.contains '-' = true →
      (jsParseInt ((splitOnChar '-' v.toList).getD 0 []) = none ∨
       jsParseInt ((splitOnChar '-' v.toList).getD 1 []) = none) →
      getPeriodRange nowMs "monthly" (some v) =
        .error "Invalid format for monthly filter. Use YYYY-MM.") ∧
    (v ≠ "1st" → v ≠ "2nd" →
      getPeriodRange nowMs "semestral" (some v) =
        .error "Invalid semester value. Use 1st or 2nd.") ∧
    (getPeriodRange nowMs "daily" (some "") = getPeriodRange nowMs "daily" none ∧
      getPeriodRange nowMs "weekly" (some "") = getPeriodRange nowMs "weekly" none) := by
  refine ⟨?_, ⟨rfl, rfl⟩, ?_, ?_, rfl, rfl⟩
  · intro h value
    simp only [List.mem_cons, List.not_mem_nil, or_false, not_or] at h
    obtain ⟨h1, h2, h3, h4⟩ := h
    simp only [getPeriodRange, if_neg h1, if_neg h2, if_neg h3, if_neg h4]
  · intro hdash hbad
    simp only [getPeriodRange, hdash, if_true]
    rcases h0 : jsParseInt ((splitOnChar '-' v.toList).getD 0 []) with _ | y <;>
      rcases h1 : jsParseInt ((splitOnChar '-' v.toList).getD 1 []) with _ | mo <;>
      simp only [h0, h1] <;> try rfl
    rw [h0, h1] at hbad
    rcases hbad with hb | hb <;> exact absurd hb (by simp)
  · intro h1 h2
    rw [getPeriodRange_semestral_eq]
    simp only []
    rw [if_neg (by simpa using h1), if_neg (by simpa using h2)]

/-- C2 amended, witness: concrete malformed inputs are rejected with
the descriptive errors (and a supplied monthly part of bare blanks,
`parseInt`-NaN, is rejected too). -/
theorem resolveRange_error_reporting_witness :
    (getPeriodRange 0 "yearly" none = .error "Invalid period type specified.") ∧
    (getPeriodRange 0 "daily" (some "1st") =
      .error "Invalid date format for daily filter. Use YYYY-MM-DD.") ∧
    (getPeriodRange 0 "monthly" (some "2024-xx") =
      .error "Invalid format for monthly filter. Use YYYY-MM.") ∧
    (getPeriodRange 0 "semestral" (some "3rd") =
      .error "Invalid semester value. Use 1st or 2nd.") :=
  ⟨(resolveRange_error_reporting 0 "yearly" "x").1 (by decide) none,
   (resolveRange_error_reporting 0 "x" "x").2.1.1,
   (resolveRange_error_reporting 0 "x" "2024-xx").2.2.1 (by decide) (by right; decide),
   (resolveRange_error_reporting 0 "x" "3rd").2.2.2.1 (by decide) (by decide)⟩

/-- C3 (code evaluated at the failing input): for every current time,
`resolveRange("semestral", "1st")` and `resolveRange("semestral",
"2nd")` return Invalid-Date bounds (`none`, the `NaN` time value)
rather than any semester interval: `referenceYear` is computed as
`new Date("1st").getFullYear()`, which is `NaN`. -/
theorem semestral_range_is_invalid_date (nowMs : Int) :
    getPeriodRange nowMs "semestral" (some "1st") = .ok (none, none) ∧
    getPeriodRange nowMs "semestral" (some "2nd") = .ok (none, none) := by
  constructor <;> rw [getPeriodRange_semestral_eq] <;>
    simp only [show jsParseDate "1st" = none from rfl,
      show jsParseDate "2nd" = none from rfl, Option.map_none] <;>
    by_cases h : getUTCMonth nowMs ≥ 8 <;>
    simp [h]

/-- C9: for every scanned id that is non-blank (so the request passes
the 400 guard and the lookup runs) and matches no student, the check
writes exactly one MealRecord with `student = null` and status
`INELIGIBLE_STUDENT_NOT_FOUND`, and answers with the not-found
result. -/
theorem checkEligibility_unknown_id_logged (db : Db) (id : String) (nowMs : Int)
    (hne : jsTrim id ≠ "")
    (habs : ∀ s ∈ db.students, s.studentIdNumber ≠ jsTrim id) :
    checkStudentEligibility db id nowMs =
      (.notFound "Student ID not found in masterlist.",
       { db with records := db.records ++
          [⟨none, jsTrim id, "UNKNOWN", 0, nowMs, .INELIGIBLE_STUDENT_NOT_FOUND⟩] }) := by
  have hfind : db.students.find? (fun s => s.studentIdNumber == jsTrim id) = none := by
    rw [List.find?_eq_none]
    intro s hs
    simpa using habs s hs
  simp only [checkStudentEligibility]
  rw [if_neg (show ¬(jsTrim id == "") = true by simpa using hne), hfind]

/-- C9 witness: scanning the unknown id `ZZZ-000` against a one-student
masterlist records the failed lookup as data and reports not-found. -/
theorem checkEligibility_unknown_id_logged_witness :
    checkStudentEligibility
        { students := [⟨1, "S-001", "Ana", "BSIS", 1⟩],
          schedules := [⟨1, "BSIS", 1, "Monday", true⟩], records := [] }
        "ZZZ-000" 0 =
      (.notFound "Student ID not found in masterlist.",
       { students := [⟨1, "S-001", "Ana", "BSIS", 1⟩],
         schedules := [⟨1, "BSIS", 1, "Monday", true⟩],
         records := [⟨none, "ZZZ-000", "UNKNOWN", 0, 0, .INELIGIBLE_STUDENT_NOT_FOUND⟩] }) :=
  checkEligibility_unknown_id_logged
    { students := [⟨1, "S-001", "Ana", "BSIS", 1⟩],
      schedules := [⟨1, "BSIS", 1, "Monday", true⟩], records := [] }
    "ZZZ-000" 0 (by decide) (by decide)

/-- C1 amended: there is no "already claimed" short-circuit in
`checkStudentEligibility`; for a student whose cohort is
schedule-eligible on the current UTC day, *every* call returns the
CLAIMED result and appends one CLAIMED MealRecord, so two calls within
the same UTC day both return CLAIMED and write two records in total. -/
theorem checkEligibility_double_scan_claims_twice (db : Db) (id : String) (nowMs : Int)
    (s : Student) (row : ScheduleRow)
    (hne : jsTrim id ≠ "")
    (hfind : db.students.find? (fun x => x.studentIdNumber == jsTrim id) = some s)
    (hsch : db.schedules.find? (fun r =>
      r.program == s.program && r.yearLevel == s.yearLevel &&
      r.dayOfWeek == getCurrentDayOfWeek nowMs) = some row)
    (helig : row.isEligible = true) :
    checkStudentEligibility db id nowMs =
      (.ok true "Eligible for meal.",
       { db with records := db.records ++
          [⟨some s._id, s.studentIdNumber, s.program, s.yearLevel, nowMs, .CLAIMED⟩] }) ∧
    checkStudentEligibility
        { db with records := db.records ++
          [⟨some s._id, s.studentIdNumber, s.program, s.yearLevel, nowMs, .CLAIMED⟩] }
        id nowMs =
      (.ok true "Eligible for meal.",
       { db with records := db.records ++
          [⟨some s._id, s.studentIdNumber, s.program, s.yearLevel, nowMs, .CLAIMED⟩,
           ⟨some s._id, s.studentIdNumber, s.program, s.yearLevel, nowMs, .CLAIMED⟩] }) := by
  have first : ∀ db' : Db, db'.students = db.students → db'.schedules = db.schedules →
      checkStudentEligibility db' id nowMs =
        (.ok true "Eligible for meal.",
         { db' with records := db'.records ++
            [⟨some s._id, s.studentIdNumber, s.program, s.yearLevel, nowMs, .CLAIMED⟩] }) := by
    intro db' hst hsc
    simp only [checkStudentEligibility, hst, hsc]
    rw [if_neg (show ¬(jsTrim id == "") = true by simpa using hne), hfind]
    simp only [hsch]
    simp [helig]
  refine ⟨first db rfl rfl, ?_⟩
  have h2 := first { db with records := db.records ++
    [⟨some s._id, s.studentIdNumber, s.program, s.yearLevel, nowMs, .CLAIMED⟩] } rfl rfl
  simpa [List.append_assoc] using h2

/-- C1 counterexample: Ana (BSIS year 1) is schedule-eligible on a
Monday; scanning her id twice on the same Monday returns the CLAIMED
result both times (the second answer is not an "already claimed"
short-circuit) and leaves **two** MealRecords in the store, not one. -/
theorem checkEligibility_double_scan_counterexample :
    (checkStudentEligibility
        { students := [⟨1, "S-001", "Ana", "BSIS", 1⟩],
          schedules := [⟨1, "BSIS", 1, "Monday", true⟩], records := [] }
        "S-001" (4 * 86400000)).1 = .ok true "Eligible for meal." ∧
    (checkStudentEligibility
        (checkStudentEligibility
          { students := [⟨1, "S-001", "Ana", "BSIS", 1⟩],
            schedules := [⟨1, "BSIS", 1, "Monday", true⟩], records := [] }
          "S-001" (4 * 86400000)).2
        "S-001" (4 * 86400000)).1 = .ok true "Eligible for meal." ∧
    (checkStudentEligibility
        (checkStudentEligibility
          { students := [⟨1, "S-001", "Ana", "BSIS", 1⟩],
            schedules := [⟨1, "BSIS", 1, "Monday", true⟩], records := [] }
          "S-001" (4 * 86400000)).2
        "S-001" (4 * 86400000)).2.records.length = 2 := by decide

/-- C1 amended, witness: the general double-scan theorem applied to
Ana on that Monday. -/
theorem checkEligibility_double_scan_claims_twice_witness :
    checkStudentEligibility
        { students := [⟨1, "S-001", "Ana", "BSIS", 1⟩],
          schedules := [⟨1, "BSIS", 1, "Monday", true⟩], records := [] }
        "S-001" (4 * 86400000) =
      (.ok true "Eligible for meal.",
       { students := [⟨1, "S-001", "Ana", "BSIS", 1⟩],
         schedules := [⟨1, "BSIS", 1, "Monday", true⟩],
         records := [⟨some 1, "S-001", "BSIS", 1, 4 * 86400000, .CLAIMED⟩] }) ∧
    checkStudentEligibility
        { students := [⟨1, "S-001", "Ana", "BSIS", 1⟩],
          schedules := [⟨1, "BSIS", 1, "Monday", true⟩],
          records := [⟨some 1, "S-001", "BSIS", 1, 4 * 86400000, .CLAIMED⟩] }
        "S-001" (4 * 86400000) =
      (.ok true "Eligible for meal.",
       { students := [⟨1, "S-001", "Ana", "BSIS", 1⟩],
         schedules := [⟨1, "BSIS", 1, "Monday", true⟩],
         records := [⟨some 1, "S-001", "BSIS", 1, 4 * 86400000, .CLAIMED⟩,
                     ⟨some 1, "S-001", "BSIS", 1, 4 * 86400000, .CLAIMED⟩] }) :=
  checkEligibility_double_scan_claims_twice
    { students := [⟨1, "S-001", "Ana", "BSIS", 1⟩],
      schedules := [⟨1, "BSIS", 1, "Monday", true⟩], records := [] }
    "S-001" (4 * 86400000) ⟨1, "S-001", "Ana", "BSIS", 1⟩ ⟨1, "BSIS", 1, "Monday", true⟩
    (by decide) (by decide) (by decide) rfl

instance (rows : List ScheduleRow) : Decidable (ScheduleInvariant rows) := by
  unfold ScheduleInvariant; infer_instance

/-- One upsert step keeps the C10 invariant, provided the requested
cohort is not `ACT` above year 2. -/
theorem upsertScheduleDay_inv {rows rows' : List ScheduleRow} {program : String}
    {yearLevel : Int} {dow : String} {elig : Bool} {nid : Nat}
    (hok : ¬ (program = "ACT" ∧ yearLevel > 2))
    (hinv : ScheduleInvariant rows)
    (h : upsertScheduleDay rows program yearLevel dow elig nid = some rows') :
    ScheduleInvariant rows' := by
  unfold upsertScheduleDay at h
  split at h
  · exact absurd h (by simp)
  · split at h
    · cases h
      intro r' hr'
      obtain ⟨r, hr, rfl⟩ := List.mem_map.mp hr'
      split
      · simpa using hinv r hr
      · exact hinv r hr
    · cases h
      intro r' hr'
      rcases List.mem_append.mp hr' with hmem | hmem
      · exact hinv r' hmem
      · simp only [List.mem_singleton] at hmem
        subst hmem
        simpa using hok

/-- The whole upsert loop keeps the C10 invariant. -/
theorem upsertScheduleDays_inv {program : String} {yearLevel : Int}
    (hok : ¬ (program = "ACT" ∧ yearLevel > 2)) :
    ∀ (days : List (String × Bool)) (rows : List ScheduleRow) (nid : Nat),
      ScheduleInvariant rows →
      ScheduleInvariant (upsertScheduleDays rows program yearLevel days nid).1 := by
  intro days
  induction days with
  | nil => intro rows nid h; simpa [upsertScheduleDays] using h
  | cons d rest ih =>
    intro rows nid h
    obtain ⟨dow, elig⟩ := d
    simp only [upsertScheduleDays]
    cases hup : upsertScheduleDay rows program yearLevel dow elig nid with
    | none => exact ih rows (nid + 1) h
    | some rows' => exact ih rows' (nid + 1) (upsertScheduleDay_inv hok h hup)

/-- C10: no Schedule row ever pairs program `ACT` with a year level
above 2.  The upsert endpoint rejects such a request with a validation
error before touching the store; the model's save path (schema
validation plus the `pre('save')` hook) rejects any direct save of
such a row; and every write path of the repository — the guarded
upsert loop, the `isEligible`-only update endpoint, the delete
endpoint, and the model save path — preserves the invariant. -/
theorem schedule_store_ACT_year_cap (rows : List ScheduleRow) (program : String)
    (yearLevel : Int) (scheduleDays : List (String × Bool)) (nid : Nat) (id : Nat)
    (elig : Bool) (row : ScheduleRow) :
    (jsToUpper program = "ACT" → yearLevel > 2 →
      addScheduleEntry rows program yearLevel scheduleDays nid =
        (.validationError "ACT program schedule is only available for Year 1 and 2.", rows)) ∧
    (jsToUpper row.program = "ACT" → row.yearLevel > 2 →
      ∃ m, saveSchedule rows row = .error m) ∧
    (ScheduleInvariant rows →
      ScheduleInvariant (addScheduleEntry rows program yearLevel scheduleDays nid).2) ∧
    (ScheduleInvariant rows → ∀ rows', updateScheduleEntry rows id elig = .ok rows' →
      ScheduleInvariant rows') ∧
    (ScheduleInvariant rows → ∀ rows', saveSchedule rows row = .ok rows' →
      ScheduleInvariant rows') ∧
    (ScheduleInvariant rows → ∀ rows', deleteScheduleEntry rows id = .ok rows' →
      ScheduleInvariant rows') := by
  refine ⟨?_, ?_, ?_, ?_, ?_, ?_⟩
  · intro hup hyl
    simp [addScheduleEntry, hup, hyl]
  · intro hup hyl
    have hyl' : ¬ (({ row with program := jsToUpper row.program } : ScheduleRow).yearLevel < 1) := by
      simp only []; omega
    by_cases h4 : ({ row with program := jsToUpper row.program } : ScheduleRow).yearLevel > 4
    · exact ⟨"Year level cannot exceed 4", by simp only [saveSchedule]; rw [if_neg hyl', if_pos h4]⟩
    · by_cases hd : validDays.contains ({ row with program := jsToUpper row.program } : ScheduleRow).dayOfWeek
      · refine ⟨"ACT program schedule is only available for Year 1 and 2.", ?_⟩
        simp only [saveSchedule]
        rw [if_neg hyl', if_neg h4, if_neg (by simpa using hd), if_pos (by simp [hup, hyl])]
      · refine ⟨"not a valid day of the week", ?_⟩
        simp only [saveSchedule]
        rw [if_neg hyl', if_neg h4, if_pos (by simpa using hd)]
  · intro hinv
    simp only [addScheduleEntry]
    split
    · exact hinv
    · next hguard =>
      have hok : ¬ (jsToUpper program = "ACT" ∧ yearLevel > 2) := by
        intro ⟨h1, h2⟩
        exact hguard (by simp [h1, h2])
      exact upsertScheduleDays_inv hok scheduleDays rows nid hinv
  · intro hinv rows' h
    simp only [updateScheduleEntry] at h
    split at h
    · cases h
      intro r' hr'
      obtain ⟨r, hr, rfl⟩ := List.mem_map.mp hr'
      split
      · simpa using hinv r hr
      · exact hinv r hr
    · exact absurd h (by simp)
  · intro hinv rows' h
    simp only [saveSchedule] at h
    split at h
    · exact absurd h (by simp)
    · split at h
      · exact absurd h (by simp)
      · split at h
        · exact absurd h (by simp)
        · split at h
          · exact absurd h (by simp)
          · split at h
            · exact absurd h (by simp)
            · next h1 h2 h3 hACT hdup =>
              cases h
              intro r' hr'
              rcases List.mem_append.mp hr' with hmem | hmem
              · exact hinv r' hmem
              · simp only [List.mem_singleton] at hmem
                subst hmem
                intro ⟨ha, hb⟩
                dsimp only at ha hb
                exact hACT (by simp [ha, hb])
  · intro hinv rows' h
    simp only [deleteScheduleEntry] at h
    split at h
    · cases h
      intro r' hr'
      exact hinv r' (List.mem_of_mem_filter hr')
    · exact absurd h (by simp)

/-- C10 witness: the guard fires on an `act`/year-3 upsert request and
on a direct save, and concrete runs of each write path keep the
invariant. -/
theorem schedule_store_ACT_year_cap_witness :
    (addScheduleEntry [⟨5, "BSIS", 1, "Monday", false⟩] "act" 3 [("Monday", true)] 9 =
      (.validationError "ACT program schedule is only available for Year 1 and 2.",
       [⟨5, "BSIS", 1, "Monday", false⟩])) ∧
    (∃ m, saveSchedule [⟨5, "BSIS", 1, "Monday", false⟩] ⟨7, "ACT", 3, "Tuesday", true⟩ =
      .error m) ∧
    ScheduleInvariant
      (addScheduleEntry [⟨5, "BSIS", 1, "Monday", false⟩] "act" 3 [("Monday", true)] 9).2 ∧
    ScheduleInvariant [⟨5, "BSIS", 1, "Monday", true⟩] := by
  have h := schedule_store_ACT_year_cap [⟨5, "BSIS", 1, "Monday", false⟩] "act" 3
    [("Monday", true)] 9 5 true ⟨7, "ACT", 3, "Tuesday", true⟩
  exact ⟨h.1 (by decide) (by decide), h.2.1 (by decide) (by decide),
    h.2.2.1 (by decide),
    h.2.2.2.1 (by decide) [⟨5, "BSIS", 1, "Monday", true⟩] (by rfl)⟩

/-- Filtering a sub-filter: counting `c` inside the `a && s`-matched
sublist equals counting `a && c` directly, when `c` implies `s`. -/
theorem length_filter_filter_absorb {α : Type} (a s c : α → Bool) (l : List α)
    (h : ∀ x, c x = true → s x = true) :
    ((l.filter (fun x => a x && s x)).filter (fun x => c x)).length =
      (l.filter (fun x => a x && c x)).length := by
  rw [List.filter_filter]
  have hpt : ∀ x ∈ l, (c x && (a x && s x)) = (a x && c x) := by
    intro x _
    by_cases hcx : c x = true
    · simp [hcx, h x hcx]
    · simp only [Bool.not_eq_true] at hcx
      simp [hcx]
  rw [List.filter_congr hpt]

/-- A `true`-entry of a conjunction filter also passes the absorbed
filter, so an empty `a && s` filter forces an empty `a && c` filter
(`c` implies `s`). -/
theorem filter_and_absorb_nil {α : Type} (a s c : α → Bool) (l : List α)
    (h : ∀ x, c x = true → s x = true)
    (hnil : l.filter (fun x => a x && s x) = []) :
    l.filter (fun x => a x && c x) = [] := by
  rw [List.filter_eq_nil_iff] at hnil ⊢
  intro x hx
  intro hcon
  simp only [Bool.and_eq_true] at hcon
  exact hnil x hx (by simp [hcon.1, h x hcon.2])

/-- Filtering after a superset filter is the same as filtering
directly, when the inner predicate implies the outer one. -/
theorem filter_filter_of_imp {α : Type} (p k : α → Bool) (l : List α)
    (h : ∀ x, p x = true → k x = true) :
    (l.filter k).filter p = l.filter p := by
  rw [List.filter_filter]
  apply List.filter_congr
  intro x _
  by_cases hp : p x = true
  · simp [hp, h x hp]
  · simp only [Bool.not_eq_true] at hp
    simp [hp]

/-- Membership through the sorted-insert step. -/
theorem insertRowSorted_mem (r x : BreakdownRow) (l : List BreakdownRow) :
    x ∈ insertRowSorted r l ↔ x = r ∨ x ∈ l := by
  induction l with
  | nil => simp [insertRowSorted]
  | cons h t ih =>
    simp only [insertRowSorted]
    split
    · simp [List.mem_cons]
    · simp only [List.mem_cons, ih]
      tauto

/-- Sorting by name does not change the set of rows. -/
theorem sortRowsByName_mem (x : BreakdownRow) (l : List BreakdownRow) :
    x ∈ sortRowsByName l ↔ x ∈ l := by
  induction l with
  | nil => simp [sortRowsByName]
  | cons h t ih =>
    show x ∈ insertRowSorted h (sortRowsByName t) ↔ _
    rw [insertRowSorted_mem]
    simp [ih]

/-- C8: over any resolved period and record set, the performance
summary counts `claimed` as the CLAIMED records in range and
`unclaimed` as the ELIGIBLE_BUT_NOT_CLAIMED records in range with
`allotted = claimed + unclaimed`; each program-breakdown row does the
same within its group; and records with either INELIGIBLE status
contribute to neither count nor denominator — removing them changes
neither output. -/
theorem summary_and_breakdown_counting (recs : List MealRecord) (s e : Int) :
    (calculateSummaryForSinglePeriod recs s e =
      { claimed := (recs.filter (fun r =>
          (decide (s ≤ r.dateChecked) && decide (r.dateChecked ≤ e)) &&
          r.status == .CLAIMED)).length,
        unclaimed := (recs.filter (fun r =>
          (decide (s ≤ r.dateChecked) && decide (r.dateChecked ≤ e)) &&
          r.status == .ELIGIBLE_BUT_NOT_CLAIMED)).length,
        allotted := (recs.filter (fun r =>
          (decide (s ≤ r.dateChecked) && decide (r.dateChecked ≤ e)) &&
          r.status == .CLAIMED)).length +
          (recs.filter (fun r =>
          (decide (s ≤ r.dateChecked) && decide (r.dateChecked ≤ e)) &&
          r.status == .ELIGIBLE_BUT_NOT_CLAIMED)).length }) ∧
    (∀ program groupBy : Option String, ∀ row ∈ getProgramBreakdown recs s e program groupBy,
      row.allotted = row.claimed + row.unclaimed ∧
      row.claimed = (((recs.filter (breakdownMatch s e program)).filter
          (fun r => breakdownKey program groupBy r == row.name)).filter
          (fun r => r.status == .CLAIMED)).length ∧
      row.unclaimed = (((recs.filter (breakdownMatch s e program)).filter
          (fun r => breakdownKey program groupBy r == row.name)).filter
          (fun r => r.status == .ELIGIBLE_BUT_NOT_CLAIMED)).length) ∧
    (calculateSummaryForSinglePeriod (recs.filter (fun r =>
        !(r.status == .INELIGIBLE_NOT_SCHEDULED ||
          r.status == .INELIGIBLE_STUDENT_NOT_FOUND))) s e =
      calculateSummaryForSinglePeriod recs s e) ∧
    (∀ program groupBy : Option String,
      getProgramBreakdown (recs.filter (fun r =>
        !(r.status == .INELIGIBLE_NOT_SCHEDULED ||
          r.status == .INELIGIBLE_STUDENT_NOT_FOUND))) s e program groupBy =
      getProgramBreakdown recs s e program groupBy) := by
  refine ⟨?_, ?_, ?_, ?_⟩
  · simp only [calculateSummaryForSinglePeriod]
    split
    · next hempty =>
      have hnil : recs.filter (fun r =>
          (decide (s ≤ r.dateChecked) && decide (r.dateChecked ≤ e)) &&
          (r.status == .CLAIMED || r.status == .ELIGIBLE_BUT_NOT_CLAIMED)) = [] := by
        simpa [List.isEmpty_iff] using hempty
      have hc := filter_and_absorb_nil
        (fun r => decide (s ≤ r.dateChecked) && decide (r.dateChecked ≤ e))
        (fun r => r.status == .CLAIMED || r.status == .ELIGIBLE_BUT_NOT_CLAIMED)
        (fun r => r.status == .CLAIMED) recs
        (fun x hx => by simp only [beq_iff_eq] at hx; simp [hx]) hnil
      have hu := filter_and_absorb_nil
        (fun r => decide (s ≤ r.dateChecked) && decide (r.dateChecked ≤ e))
        (fun r => r.status == .CLAIMED || r.status == .ELIGIBLE_BUT_NOT_CLAIMED)
        (fun r => r.status == .ELIGIBLE_BUT_NOT_CLAIMED) recs
        (fun x hx => by simp only [beq_iff_eq] at hx; simp [hx]) hnil
      simp [hc, hu]
    · next hne =>
      have hc := length_filter_filter_absorb
        (fun r => decide (s ≤ r.dateChecked) && decide (r.dateChecked ≤ e))
        (fun r => r.status == .CLAIMED || r.status == .ELIGIBLE_BUT_NOT_CLAIMED)
        (fun r => r.status == .CLAIMED) recs
        (fun x hx => by simp only [beq_iff_eq] at hx; simp [hx])
      have hu := length_filter_filter_absorb
        (fun r => decide (s ≤ r.dateChecked) && decide (r.dateChecked ≤ e))
        (fun r => r.status == .CLAIMED || r.status == .ELIGIBLE_BUT_NOT_CLAIMED)
        (fun r => r.status == .ELIGIBLE_BUT_NOT_CLAIMED) recs
        (fun x hx => by simp only [beq_iff_eq] at hx; simp [hx])
      simp only [Summary.mk.injEq]
      exact ⟨hc, hu, by rw [hc, hu]⟩
  · intro program groupBy row hrow
    simp only [getProgramBreakdown] at hrow
    rw [sortRowsByName_mem] at hrow
    obtain ⟨k, hk, rfl⟩ := List.mem_map.mp hrow
    exact ⟨rfl, rfl, rfl⟩
  · simp only [calculateSummaryForSinglePeriod]
    rw [filter_filter_of_imp]
    intro x hx
    simp only [Bool.and_eq_true, Bool.or_eq_true, beq_iff_eq] at hx
    rcases hx.2 with h | h <;> simp [h]
  · intro program groupBy
    simp only [getProgramBreakdown]
    rw [filter_filter_of_imp]
    intro x hx
    simp only [breakdownMatch, Bool.and_eq_true, Bool.or_eq_true, beq_iff_eq] at hx
    rcases hx.1.2 with h | h <;> simp [h]

/-- C8 witness: the breakdown row facts applied to a concrete record
set with all four statuses present. -/
theorem summary_and_breakdown_counting_witness :
    (⟨"BSA", 1, 1, 2⟩ : BreakdownRow) ∈
      getProgramBreakdown
        [⟨some 1, "A", "BSA", 1, 10, .CLAIMED⟩,
         ⟨some 2, "B", "BSA", 1, 20, .ELIGIBLE_BUT_NOT_CLAIMED⟩,
         ⟨some 3, "C", "BSA", 1, 30, .INELIGIBLE_NOT_SCHEDULED⟩,
         ⟨none, "D", "UNKNOWN", 0, 40, .INELIGIBLE_STUDENT_NOT_FOUND⟩] 0 100 none none ∧
    (⟨"BSA", 1, 1, 2⟩ : BreakdownRow).allotted =
      (⟨"BSA", 1, 1, 2⟩ : BreakdownRow).claimed + (⟨"BSA", 1, 1, 2⟩ : BreakdownRow).unclaimed :=
  ⟨by decide,
   ((summary_and_breakdown_counting
      [⟨some 1, "A", "BSA", 1, 10, .CLAIMED⟩,
       ⟨some 2, "B", "BSA", 1, 20, .ELIGIBLE_BUT_NOT_CLAIMED⟩,
       ⟨some 3, "C", "BSA", 1, 30, .INELIGIBLE_NOT_SCHEDULED⟩,
       ⟨none, "D", "UNKNOWN", 0, 40, .INELIGIBLE_STUDENT_NOT_FOUND⟩] 0 100).2.1 none none
      ⟨"BSA", 1, 1, 2⟩ (by decide)).1⟩

/-- Every weekday index 0–6 names a member of `validDays` (the
`validDays.includes(dayOfWeek)` guard can never fire). -/
theorem dayName_mem_validDays (w : Int) (h0 : 0 ≤ w) (h7 : w < 7) :
    validDays.contains (dayName w) = true := by
  have hw : w = 0 ∨ w = 1 ∨ w = 2 ∨ w = 3 ∨ w = 4 ∨ w = 5 ∨ w = 6 := by omega
  rcases hw with rfl | rfl | rfl | rfl | rfl | rfl | rfl <;> decide

/-- `distinct` keeps membership intact (it only models `distinct()` /
`Set` membership). -/
theorem distinct_contains {α : Type} [BEq α] [LawfulBEq α] (l : List α) (a : α) :
    (distinct l).contains a = l.contains a := by
  induction l with
  | nil => rfl
  | cons x t ih =>
    simp only [distinct]
    split
    · next hc =>
      rw [List.contains_cons]
      by_cases hax : a = x
      · subst hax
        rw [ih] at hc ⊢
        rw [hc]
        simp
      · rw [ih]
        simp [hax]
    · next hc =>
      rw [List.contains_cons, List.contains_cons, ih]

/-- Membership of a value among the `student` fields of the filtered
records, as a single `any` over the record list. -/
theorem map_filter_contains_eq_any (recs : List MealRecord) (P : MealRecord → Bool)
    (v : Option Nat) :
    ((recs.filter P).map (fun r => r.student)).contains v =
      recs.any (fun r => P r && r.student == v) := by
  induction recs with
  | nil => rfl
  | cons x t ih =>
    by_cases hp : P x = true
    · rw [List.filter_cons_of_pos hp, List.map_cons, List.contains_cons, ih,
        List.any_cons, hp, Bool.true_and]
      by_cases hv : v = x.student
      · subst hv
        have h1 : (x.student == x.student) = true := by simp
        rw [h1]
      · have h1 : (v == x.student) = false := by simp [hv]
        have h2 : (x.student == v) = false := by simp [Ne.symm hv]
        rw [h1, h2]
    · have hp' : P x = false := by simpa using hp
      rw [List.filter_cons_of_neg hp, ih, List.any_cons, hp', Bool.false_and,
        Bool.false_or]

/-- The `$or`-criteria test of the backfill equals one `any` over the
schedule table. -/
theorem criteria_any_eq (schedules : List ScheduleRow) (dow : String) (st : Student) :
    ((schedules.filter (fun s => s.dayOfWeek == dow && s.isEligible)).map
        (fun s => (s.program, s.yearLevel))).any
      (fun c => c.1 == st.program && c.2 == st.yearLevel) =
    schedules.any (fun row => row.dayOfWeek == dow && row.isEligible &&
      (row.program == st.program && row.yearLevel == st.yearLevel)) := by
  induction schedules with
  | nil => rfl
  | cons x t ih =>
    by_cases hd : (x.dayOfWeek == dow && x.isEligible) = true
    · simp [List.filter_cons, hd, List.any_cons, ih]
    · have hd' : (x.dayOfWeek == dow && x.isEligible) = false := by simpa using hd
      simp [List.filter_cons, hd', List.any_cons, ih]

/-- The students the backfill is meant to target on the day of `t`:
members of a cohort scheduled eligible on that weekday who have no
MealRecord of any status on that UTC day. -/
def backfillTargets (db : Db) (t : Int) : List Student :=
  db.students.filter (fun st =>
    db.schedules.any (fun row => row.dayOfWeek == dayName ((t / dayMs + 4) % 7) &&
      row.isEligible && (row.program == st.program && row.yearLevel == st.yearLevel)) &&
    !(db.records.any (fun r => decide (t / dayMs * dayMs ≤ r.dateChecked) &&
      decide (r.dateChecked ≤ t / dayMs * dayMs + dayMs - 1) && r.student == some st._id)))

/-- Characterisation of a successful backfill run: when the date
parses, some cohort is scheduled eligible on its weekday, and no
record of that day carries a `null` student (the crash case), the run
answers `createdCount = |backfillTargets|` and appends exactly one
`ELIGIBLE_BUT_NOT_CLAIMED` record per target, dated to the UTC start
of the day. -/
theorem generateUnclaimedRecords_spec (db : Db) (ds : String) (t : Int)
    (hparse : jsParseDate ds = some t)
    (hsched : db.schedules.filter (fun s =>
        s.dayOfWeek == dayName ((t / dayMs + 4) % 7) && s.isEligible) ≠ [])
    (hnonull : ∀ r ∈ db.records,
      t / dayMs * dayMs ≤ r.dateChecked → r.dateChecked ≤ t / dayMs * dayMs + dayMs - 1 →
      r.student ≠ none) :
    generateUnclaimedRecords db (some ds) =
      (.ok (backfillTargets db t).length,
       { db with records := db.records ++ (backfillTargets db t).map (fun st =>
          (⟨some st._id, st.studentIdNumber, st.program, st.yearLevel,
            t / dayMs * dayMs, .ELIGIBLE_BUT_NOT_CLAIMED⟩ : MealRecord)) }) := by
  have hvd : validDays.contains (dayName ((t / dayMs + 4) % 7)) = true :=
    dayName_mem_validDays _ (by omega) (by omega)
  have hempty : (db.schedules.filter (fun s =>
      s.dayOfWeek == dayName ((t / dayMs + 4) % 7) && s.isEligible)).isEmpty = false := by
    rcases hfl : db.schedules.filter (fun s =>
      s.dayOfWeek == dayName ((t / dayMs + 4) % 7) && s.isEligible) with _ | ⟨a, as⟩
    · exact absurd hfl hsched
    · rw [hfl]
      rfl
  have hcrash : (distinct ((db.records.filter (fun r =>
      decide (t / dayMs * dayMs ≤ r.dateChecked) &&
      decide (r.dateChecked ≤ t / dayMs * dayMs + dayMs - 1))).map
      (fun r => r.student))).contains none = false := by
    rw [distinct_contains, map_filter_contains_eq_any, List.any_eq_false]
    intro r hr
    intro hcon
    simp only [Bool.and_eq_true, decide_eq_true_eq, beq_iff_eq] at hcon
    exact hnonull r hr hcon.1.1 hcon.1.2 hcon.2
  have hL : ((db.students.filter (fun st =>
      ((db.schedules.filter (fun s =>
          s.dayOfWeek == dayName ((t / dayMs + 4) % 7) && s.isEligible)).map
        (fun s => (s.program, s.yearLevel))).any
        (fun c => c.1 == st.program && c.2 == st.yearLevel))).filter (fun st =>
      ¬ ((distinct ((db.records.filter (fun r =>
        decide (t / dayMs * dayMs ≤ r.dateChecked) &&
        decide (r.dateChecked ≤ t / dayMs * dayMs + dayMs - 1))).map
          (fun r => r.student))).contains (some st._id)))) = backfillTargets db t := by
    rw [List.filter_filter]
    apply List.filter_congr
    intro st _
    rw [distinct_contains, map_filter_contains_eq_any, criteria_any_eq]
    have hd : ∀ b : Bool, decide (b = true) = b := fun b => by simp
    simp only [decide_not, hd]
    rw [Bool.and_comm]
  simp only [generateUnclaimedRecords, hparse]
  rw [if_neg (not_not_intro hvd), if_neg (by rw [hempty]; simp),
    if_neg (by rw [hcrash]; simp), hL]
  by_cases hT : (backfillTargets db t).isEmpty = true
  · rw [if_pos hT]
    have hTnil : backfillTargets db t = [] := List.isEmpty_iff.mp hT
    rw [hTnil]
    simp
  · rw [if_neg hT]
    simp

/-- C6 amended: for every parseable date whose weekday has an eligible
Schedule row, **provided no record of that day has a null student
reference** (a not-found audit record makes the endpoint throw
instead, see the counterexample), the backfill inserts exactly one
`ELIGIBLE_BUT_NOT_CLAIMED` record, dated to the UTC start of the day,
per student of an eligible cohort without a record that day
(`backfillTargets`), inserts nothing for students who already have any
record that day, and reports `createdCount` equal to the number
inserted. -/
theorem backfill_creates_one_record_per_target (db : Db) (ds : String) (t : Int)
    (hparse : jsParseDate ds = some t)
    (hsched : db.schedules.filter (fun s =>
        s.dayOfWeek == dayName ((t / dayMs + 4) % 7) && s.isEligible) ≠ [])
    (hnonull : ∀ r ∈ db.records,
      t / dayMs * dayMs ≤ r.dateChecked → r.dateChecked ≤ t / dayMs * dayMs + dayMs - 1 →
      r.student ≠ none) :
    generateUnclaimedRecords db (some ds) =
      (.ok (backfillTargets db t).length,
       { db with records := db.records ++ (backfillTargets db t).map (fun st =>
          (⟨some st._id, st.studentIdNumber, st.program, st.yearLevel,
            t / dayMs * dayMs, .ELIGIBLE_BUT_NOT_CLAIMED⟩ : MealRecord)) }) ∧
    (∀ st : Student, st ∈ backfillTargets db t ↔
      st ∈ db.students ∧
      (db.schedules.any (fun row => row.dayOfWeek == dayName ((t / dayMs + 4) % 7) &&
        row.isEligible && (row.program == st.program && row.yearLevel == st.yearLevel))) = true ∧
      (db.records.any (fun r => decide (t / dayMs * dayMs ≤ r.dateChecked) &&
        decide (r.dateChecked ≤ t / dayMs * dayMs + dayMs - 1) &&
        r.student == some st._id)) = false) := by
  refine ⟨generateUnclaimedRecords_spec db ds t hparse hsched hnonull, ?_⟩
  intro st
  rw [backfillTargets, List.mem_filter]
  simp only [Bool.and_eq_true, Bool.not_eq_true']

/-- C6 counterexample: date 1970-01-07 is a Wednesday, cohort (BSA, 2)
is scheduled eligible, student Bea (BSA year 2) has no record that
day — the claim says exactly one record is inserted for her.  But a
not-found audit record (`student = null`) also sits on that day, so
`distinct('student')` yields `null`, `id.toString()` throws, and the
endpoint errors out having inserted nothing. -/
theorem backfill_null_student_counterexample :
    generateUnclaimedRecords
      { students := [⟨1, "B-001", "Bea", "BSA", 2⟩],
        schedules := [⟨1, "BSA", 2, "Wednesday", true⟩],
        records := [⟨none, "ZZZ", "UNKNOWN", 0, 6 * 86400000 + 100,
          .INELIGIBLE_STUDENT_NOT_FOUND⟩] }
      (some "1970-01-07") =
    (.err "TypeError: cannot call toString of null",
     { students := [⟨1, "B-001", "Bea", "BSA", 2⟩],
       schedules := [⟨1, "BSA", 2, "Wednesday", true⟩],
       records := [⟨none, "ZZZ", "UNKNOWN", 0, 6 * 86400000 + 100,
         .INELIGIBLE_STUDENT_NOT_FOUND⟩] }) := by decide

/-- C6 amended, witness: 1970-01-07 is a Wednesday; cohort (BSA, 2) is
scheduled eligible; of the five BSA-year-2 students, two already have
a MealRecord for that day and three do not — the backfill creates
exactly three `ELIGIBLE_BUT_NOT_CLAIMED` records. -/
theorem backfill_creates_one_record_per_target_witness :
    generateUnclaimedRecords
      { students := [⟨1, "B-001", "A", "BSA", 2⟩, ⟨2, "B-002", "B", "BSA", 2⟩,
                     ⟨3, "B-003", "C", "BSA", 2⟩, ⟨4, "B-004", "D", "BSA", 2⟩,
                     ⟨5, "B-005", "E", "BSA", 2⟩],
        schedules := [⟨1, "BSA", 2, "Wednesday", true⟩],
        records := [⟨some 4, "B-004", "BSA", 2, 6 * 86400000 + 500, .CLAIMED⟩,
                    ⟨some 5, "B-005", "BSA", 2, 6 * 86400000 + 900,
                      .INELIGIBLE_NOT_SCHEDULED⟩] }
      (some "1970-01-07") =
    (.ok 3,
     { students := [⟨1, "B-001", "A", "BSA", 2⟩, ⟨2, "B-002", "B", "BSA", 2⟩,
                    ⟨3, "B-003", "C", "BSA", 2⟩, ⟨4, "B-004", "D", "BSA", 2⟩,
                    ⟨5, "B-005", "E", "BSA", 2⟩],
       schedules := [⟨1, "BSA", 2, "Wednesday", true⟩],
       records := [⟨some 4, "B-004", "BSA", 2, 6 * 86400000 + 500, .CLAIMED⟩,
                   ⟨some 5, "B-005", "BSA", 2, 6 * 86400000 + 900,
                     .INELIGIBLE_NOT_SCHEDULED⟩,
                   ⟨some 1, "B-001", "BSA", 2, 6 * 86400000, .ELIGIBLE_BUT_NOT_CLAIMED⟩,
                   ⟨some 2, "B-002", "BSA", 2, 6 * 86400000, .ELIGIBLE_BUT_NOT_CLAIMED⟩,
                   ⟨some 3, "B-003", "BSA", 2, 6 * 86400000, .ELIGIBLE_BUT_NOT_CLAIMED⟩] }) := by
  have h := (backfill_creates_one_record_per_target
    { students := [⟨1, "B-001", "A", "BSA", 2⟩, ⟨2, "B-002", "B", "BSA", 2⟩,
                   ⟨3, "B-003", "C", "BSA", 2⟩, ⟨4, "B-004", "D", "BSA", 2⟩,
                   ⟨5, "B-005", "E", "BSA", 2⟩],
      schedules := [⟨1, "BSA", 2, "Wednesday", true⟩],
      records := [⟨some 4, "B-004", "BSA", 2, 6 * 86400000 + 500, .CLAIMED⟩,
                  ⟨some 5, "B-005", "BSA", 2, 6 * 86400000 + 900,
                    .INELIGIBLE_NOT_SCHEDULED⟩] }
    "1970-01-07" (6 * 86400000) (by decide) (by decide) (by decide)).1
  rw [h]
  rfl

/-- C5: running the backfill twice with the same date input leaves the
store of the first run unchanged, and the second run creates zero new
records — with no assumptions on the store or the input: every
rejected or crashed run changes nothing, and after a successful run
every previously-recordless eligible student has received a record
dated inside the day, so the second exclusion step removes everyone. -/
theorem generateUnclaimedRecords_idempotent (db : Db) (date : Option String) :
    (generateUnclaimedRecords (generateUnclaimedRecords db date).2 date).2 =
      (generateUnclaimedRecords db date).2 ∧
    ((generateUnclaimedRecords (generateUnclaimedRecords db date).2 date).1).createdCount
      = 0 := by
  rcases date with _ | ds
  · exact ⟨rfl, rfl⟩
  rcases hp : jsParseDate ds with _ | t
  · constructor <;> simp [generateUnclaimedRecords, hp, GenResult.createdCount]
  have hvd : validDays.contains (dayName ((t / dayMs + 4) % 7)) = true :=
    dayName_mem_validDays _ (by omega) (by omega)
  by_cases hsched : db.schedules.filter (fun s =>
      s.dayOfWeek == dayName ((t / dayMs + 4) % 7) && s.isEligible) = []
  · have h1 : generateUnclaimedRecords db (some ds) = (.ok 0, db) := by
      simp only [generateUnclaimedRecords, hp]
      rw [if_neg (not_not_intro hvd), if_pos (List.isEmpty_iff.mpr hsched)]
    constructor <;> simp [h1, GenResult.createdCount]
  by_cases hnull : (distinct ((db.records.filter (fun r =>
      decide (t / dayMs * dayMs ≤ r.dateChecked) &&
      decide (r.dateChecked ≤ t / dayMs * dayMs + dayMs - 1))).map
      (fun r => r.student))).contains none = true
  · have hempty : (db.schedules.filter (fun s =>
        s.dayOfWeek == dayName ((t / dayMs + 4) % 7) && s.isEligible)).isEmpty = false := by
      rcases hfl : db.schedules.filter (fun s =>
        s.dayOfWeek == dayName ((t / dayMs + 4) % 7) && s.isEligible) with _ | ⟨a, as⟩
      · exact absurd hfl hsched
      · rw [hfl]; rfl
    have h1 : generateUnclaimedRecords db (some ds) =
        (.err "TypeError: cannot call toString of null", db) := by
      simp only [generateUnclaimedRecords, hp]
      rw [if_neg (not_not_intro hvd), if_neg (by rw [hempty]; simp), if_pos hnull]
    constructor <;> simp [h1, GenResult.createdCount]
  · have hnull' : (distinct ((db.records.filter (fun r =>
        decide (t / dayMs * dayMs ≤ r.dateChecked) &&
        decide (r.dateChecked ≤ t / dayMs * dayMs + dayMs - 1))).map
        (fun r => r.student))).contains none = false := by
      simpa using hnull
    have hnonull : ∀ r ∈ db.records, t / dayMs * dayMs ≤ r.dateChecked →
        r.dateChecked ≤ t / dayMs * dayMs + dayMs - 1 → r.student ≠ none := by
      intro r hr hlo hhi hc
      rw [distinct_contains, map_filter_contains_eq_any, List.any_eq_false] at hnull'
      exact hnull' r hr (by simp [hlo, hhi, hc])
    have h1 := generateUnclaimedRecords_spec db ds t hp hsched hnonull
    set db1 : Db := { db with records := db.records ++ (backfillTargets db t).map (fun st =>
        (⟨some st._id, st.studentIdNumber, st.program, st.yearLevel,
          t / dayMs * dayMs, .ELIGIBLE_BUT_NOT_CLAIMED⟩ : MealRecord)) } with hdb1
    have hnonull1 : ∀ r ∈ db1.records, t / dayMs * dayMs ≤ r.dateChecked →
        r.dateChecked ≤ t / dayMs * dayMs + dayMs - 1 → r.student ≠ none := by
      intro r hr hlo hhi
      rw [hdb1] at hr
      rcases List.mem_append.mp hr with h | h
      · exact hnonull r h hlo hhi
      · obtain ⟨st, _, rfl⟩ := List.mem_map.mp h
        simp
    have h2 := generateUnclaimedRecords_spec db1 ds t hp hsched hnonull1
    have hB : backfillTargets db1 t = [] := by
      rw [hdb1, backfillTargets]
      dsimp only
      rw [List.filter_eq_nil_iff]
      intro st hst hcon
      simp only [Bool.and_eq_true, Bool.not_eq_true'] at hcon
      obtain ⟨hcoh, hrec2⟩ := hcon
      rw [List.any_append] at hrec2
      obtain ⟨hrec1, hnew⟩ := Bool.or_eq_false_iff.mp hrec2
      have hstT : st ∈ backfillTargets db t := by
        rw [backfillTargets, List.mem_filter]
        refine ⟨hst, ?_⟩
        simp [hcoh, hrec1]
      have hany : ((List.map (fun st =>
            (⟨some st._id, st.studentIdNumber, st.program, st.yearLevel,
              t / dayMs * dayMs, .ELIGIBLE_BUT_NOT_CLAIMED⟩ : MealRecord))
          (backfillTargets db t)).any
          (fun r => decide (t / dayMs * dayMs ≤ r.dateChecked) &&
            decide (r.dateChecked ≤ t / dayMs * dayMs + dayMs - 1) &&
            r.student == some st._id)) = true := by
        rw [List.any_eq_true]
        refine ⟨_, List.mem_map_of_mem _ hstT, ?_⟩
        simp only [Bool.and_eq_true, decide_eq_true_eq, beq_iff_eq]
        refine ⟨⟨le_refl _, ?_⟩, trivial⟩
        simp only [dayMs]
        omega
      rw [hany] at hnew
      exact absurd hnew (by simp)
    rw [hB] at h2
    simp only [List.length_nil, List.map_nil, List.append_nil] at h2
    constructor
    · rw [h1]
      dsimp only
      rw [h2]
    · rw [h1]
      dsimp only
      rw [h2]
      rfl

/-- The `allotted` denominator over an interval: records in range
whose status is CLAIMED or ELIGIBLE_BUT_NOT_CLAIMED. -/
def countA (recs : List MealRecord) (s e : Int) : Nat :=
  (recs.filter (fun r =>
    decide (s ≤ r.dateChecked) && decide (r.dateChecked ≤ e) &&
    (r.status == .CLAIMED || r.status == .ELIGIBLE_BUT_NOT_CLAIMED))).length

/-- Two disjoint filters that together make up a third have additive
lengths. -/
theorem length_filter_partition {α : Type} (p q r : α → Bool) :
    ∀ l : List α, (∀ x ∈ l, r x = (p x || q x) ∧ ¬(p x = true ∧ q x = true)) →
      (l.filter p).length + (l.filter q).length = (l.filter r).length := by
  intro l
  induction l with
  | nil => intro _; rfl
  | cons x t ih =>
    intro h
    have hx := h x (List.mem_cons_self x t)
    have ihr := ih (fun y hy => h y (List.mem_cons_of_mem x hy))
    rcases hpx : p x with _ | _ <;> rcases hqx : q x with _ | _
    · have hrx : r x = false := by rw [hx.1, hpx, hqx]; rfl
      simp only [List.filter_cons, hpx, hqx, hrx]
      simpa using ihr
    · have hrx : r x = true := by rw [hx.1, hpx, hqx]; rfl
      simp [List.filter_cons, hpx, hqx, hrx]
      omega
    · have hrx : r x = true := by rw [hx.1, hpx, hqx]; rfl
      simp [List.filter_cons, hpx, hqx, hrx]
      omega
    · exact absurd ⟨hpx, hqx⟩ hx.2

/-- Adjacent-interval additivity of the allotted count. -/
theorem countA_split (recs : List MealRecord) (a m b : Int)
    (h1 : a - 1 ≤ m) (h2 : m ≤ b) :
    countA recs a m + countA recs (m + 1) b = countA recs a b := by
  unfold countA
  apply length_filter_partition
  intro x _
  refine ⟨?_, ?_⟩
  · by_cases hA : a ≤ x.dateChecked <;>
      by_cases hB : x.dateChecked ≤ b <;>
      by_cases hC : x.dateChecked ≤ m <;>
      by_cases hD : m + 1 ≤ x.dateChecked <;>
      simp [hA, hB, hC, hD] <;>
      omega
  · intro ⟨hp, hq⟩
    simp only [Bool.and_eq_true, decide_eq_true_eq] at hp hq
    have hC : x.dateChecked ≤ m := by tauto
    have hD : m + 1 ≤ x.dateChecked := by tauto
    omega

/-- `allotted` of a single-period summary is exactly the allotted
count of the interval. -/
theorem allotted_eq_countA (recs : List MealRecord) (s e : Int) :
    (calculateSummaryForSinglePeriod recs s e).allotted = countA recs s e := by
  simp only [calculateSummaryForSinglePeriod, countA]
  split
  · next h =>
    rw [List.isEmpty_iff.mp h]
    rfl
  · next h =>
    have hpart := length_filter_partition (fun r => r.status == MealStatus.CLAIMED)
      (fun r => r.status == MealStatus.ELIGIBLE_BUT_NOT_CLAIMED) (fun _ => true)
      (recs.filter (fun r =>
        decide (s ≤ r.dateChecked) && decide (r.dateChecked ≤ e) &&
        (r.status == .CLAIMED || r.status == .ELIGIBLE_BUT_NOT_CLAIMED)))
      (by
        intro x hx
        have hP := (List.mem_filter.mp hx).2
        have hS : (x.status == MealStatus.CLAIMED ||
            x.status == MealStatus.ELIGIBLE_BUT_NOT_CLAIMED) = true := by
          simp only [Bool.and_eq_true] at hP
          tauto
        rcases x.status <;> simp_all)
    simpa using hpart

/-- The `monthly` branch of `getPeriodRange`, isolated
definitionally. -/
theorem getPeriodRange_monthly_eq (nowMs : Int) (value : Option String) :
    getPeriodRange nowMs "monthly" value =
      (match (match value with
        | some v =>
          if v.toList.contains '-' then
            match jsParseInt ((splitOnChar '-' v.toList).getD 0 []),
                  jsParseInt ((splitOnChar '-' v.toList).getD 1 []) with
            | some y, some mo => some (y, mo - 1)
            | _, _ => none
          else some (getUTCFullYear nowMs, getUTCMonth nowMs)
        | none => some (getUTCFullYear nowMs, getUTCMonth nowMs) : Option (Int × Int)) with
      | none => .error "Invalid format for monthly filter. Use YYYY-MM."
      | some (year, month) =>
        .ok (some (makeDay year month 1 * dayMs),
             some (makeDay year (month + 1) 0 * dayMs + (dayMs - 1)))) := rfl

/-- Every successful `monthly` range is day-aligned: the start is a
UTC midnight and the end is the last millisecond of a UTC day. -/
theorem getPeriodRange_monthly_aligned (nowMs : Int) (value : Option String) (S E : Int)
    (h : getPeriodRange nowMs "monthly" value = .ok (some S, some E)) :
    ∃ a b : Int, S = a * dayMs ∧ E = b * dayMs - 1 := by
  rw [getPeriodRange_monthly_eq] at h
  split at h
  · exact absurd h (by simp)
  · next y mo heq =>
    simp only [Except.ok.injEq, Prod.mk.injEq, Option.some.injEq] at h
    refine ⟨makeDay y mo 1, makeDay y (mo + 1) 0 + 1, h.1.symm, ?_⟩
    rw [← h.2]
    simp only [dayMs]
    ring

/-- The week buckets of `getPerformanceSummaryMonthly` tile the month:
summing the allotted count over the clipped weeks starting at `ws`
gives the allotted count from `ws`'s week (clipped to the month start)
through the month end. -/
theorem monthlyBuckets_countA_sum (recs : List MealRecord) (mStart mEnd bA : Int)
    (hEnd : mEnd = bA * dayMs - 1) :
    ∀ (n : Nat) (ws : Int), (mEnd + dayMs - ws).toNat ≤ n →
      mStart ≤ ws → ws ≤ mEnd →
      ((monthlyBuckets mStart mEnd ws).map (fun r => countA recs r.1 r.2)).sum =
        countA recs (max (weeklyRangeMs (ws / dayMs)).1 mStart) mEnd := by
  intro n
  induction n with
  | zero =>
    intro ws hn h1 h2
    exfalso
    simp only [dayMs] at *
    omega
  | succ n ih =>
    intro ws hn h1 h2
    rw [monthlyBuckets, dif_pos h2]
    obtain ⟨m, hm, hmon, hlo, hhi⟩ := weeklyRangeMs_spec (ws / dayMs)
    rw [hm]
    dsimp only
    simp only [List.map_cons, List.sum_cons]
    have hwlo : m * dayMs ≤ ws := by simp only [dayMs] at *; omega
    have hwhi : ws ≤ (m + 7) * dayMs - 1 := by simp only [dayMs] at *; omega
    by_cases hnext : (m + 7) * dayMs - 1 + dayMs ≤ mEnd
    · have hrec := ih ((m + 7) * dayMs - 1 + dayMs) (by simp only [dayMs] at *; omega)
        (by simp only [dayMs] at *; omega) hnext
      have harg : ((m + 7) * dayMs - 1 + dayMs) / dayMs = m + 7 := by
        simp only [dayMs] at *; omega
      rw [harg] at hrec
      have hwk : weeklyRangeMs (m + 7) = ((m + 7) * dayMs, (m + 7 + 7) * dayMs - 1) := by
        have hW : (m + 7 + 4) % 7 = 1 := by omega
        simp only [weeklyRangeMs, hW]
        norm_num
      rw [hwk] at hrec
      dsimp only at hrec
      have hmaxnext : max ((m + 7) * dayMs) mStart = (m + 7) * dayMs := by
        simp only [dayMs] at *; omega
      rw [hmaxnext] at hrec
      have hminv : min ((m + 7) * dayMs - 1) mEnd = (m + 7) * dayMs - 1 := by
        simp only [dayMs] at *; omega
      rw [hminv, hrec]
      have hsplit := countA_split recs (max (m * dayMs) mStart) ((m + 7) * dayMs - 1) mEnd
        (by simp only [dayMs] at *; omega) (by simp only [dayMs] at *; omega)
      rw [show (m + 7) * dayMs - 1 + 1 = (m + 7) * dayMs from by ring] at hsplit
      exact hsplit
    · have hstop : monthlyBuckets mStart mEnd ((m + 7) * dayMs - 1 + dayMs) = [] := by
        rw [monthlyBuckets, dif_neg hnext]
      rw [hstop]
      simp only [List.map_nil, List.sum_nil, Nat.add_zero]
      have hminv : min ((m + 7) * dayMs - 1) mEnd = mEnd := by
        simp only [dayMs] at *; omega
      rw [hminv]

/-- C4: for every month value that resolves to a range `[S, E]` with
at least one day and every record set, the sum of `allotted` over the
week-buckets of `summarize("monthly", value)` equals `allotted`
computed directly over the whole month: the clipped week sub-ranges
partition the month with no double-counting and no gaps. -/
theorem monthly_week_buckets_partition (recs : List MealRecord) (nowMs : Int)
    (value : Option String) (S E : Int)
    (hok : getPeriodRange nowMs "monthly" value = .ok (some S, some E))
    (hne : S ≤ E) :
    ∃ l, getPerformanceSummaryMonthly recs nowMs value = .ok l ∧
      (l.map Summary.allotted).sum =
        (calculateSummaryForSinglePeriod recs S E).allotted := by
  obtain ⟨a, bA, ha, hb⟩ := getPeriodRange_monthly_aligned nowMs value S E hok
  have hlist : getPerformanceSummaryMonthly recs nowMs value =
      .ok ((monthlyBuckets S E S).map
        (fun r => calculateSummaryForSinglePeriod recs r.1 r.2)) := by
    simp only [getPerformanceSummaryMonthly, hok]
  refine ⟨_, hlist, ?_⟩
  rw [allotted_eq_countA, List.map_map]
  have hpt : (Summary.allotted ∘ fun r : Int × Int =>
      calculateSummaryForSinglePeriod recs r.1 r.2) =
      (fun r : Int × Int => countA recs r.1 r.2) := by
    funext r
    exact allotted_eq_countA recs r.1 r.2
  rw [hpt]
  have hmain := monthlyBuckets_countA_sum recs S E bA hb ((E + dayMs - S).toNat) S
    le_rfl le_rfl hne
  rw [hmain]
  obtain ⟨m, hm, hmon, hlo, hhi⟩ := weeklyRangeMs_spec (S / dayMs)
  rw [hm]
  dsimp only
  have hmax : max (m * dayMs) S = S := by
    subst ha
    simp only [dayMs] at *
    omega
  rw [hmax]

/-- C4 witness: October 2024 with two in-month records; the week
buckets sum to the month total. -/
theorem monthly_week_buckets_partition_witness :
    ∃ l, getPerformanceSummaryMonthly
        [⟨some 1, "A", "BSIS", 1, 19998 * 86400000 + 5, .CLAIMED⟩,
         ⟨some 2, "B", "BSIS", 1, 20010 * 86400000, .ELIGIBLE_BUT_NOT_CLAIMED⟩]
        0 (some "2024-10") = .ok l ∧
      (l.map Summary.allotted).sum =
        (calculateSummaryForSinglePeriod
          [⟨some 1, "A", "BSIS", 1, 19998 * 86400000 + 5, .CLAIMED⟩,
           ⟨some 2, "B", "BSIS", 1, 20010 * 86400000, .ELIGIBLE_BUT_NOT_CLAIMED⟩]
          (19997 * 86400000) (20028 * 86400000 - 1)).allotted :=
  monthly_week_buckets_partition
    [⟨some 1, "A", "BSIS", 1, 19998 * 86400000 + 5, .CLAIMED⟩,
     ⟨some 2, "B", "BSIS", 1, 20010 * 86400000, .ELIGIBLE_BUT_NOT_CLAIMED⟩]
    0 (some "2024-10") (19997 * 86400000) (20028 * 86400000 - 1) (by rfl) (by decide)
